import Mathlib

/-!
Shallow embedding of the personnel / base-station registry
(src/streamlit_app.py and src/scripts/import_excel.py): the data model,
the repository layer, the maintenance aggregator, the reporting
computations and the attachment file-name handling, together with
theorems settling the specification claims about them.
-/

/-! ### Generic string helpers

SQLite orders TEXT with its binary collation (byte order of the UTF-8
encoding, which coincides with code-point order), and LIKE folds ASCII
letters case-insensitively.  Both are modelled on `List Char`.
-/

/-- Code-point comparison of two strings as char lists, modelling the
binary collation SQLite applies in ORDER BY over TEXT columns. -/
def lexLe : List Char → List Char → Bool
  | [], _ => true
  | _ :: _, [] => false
  | a :: as, b :: bs =>
    if a.toNat < b.toNat then true
    else if b.toNat < a.toNat then false
    else lexLe as bs

/-- Binary-collation comparison on strings. -/
def strLe (a b : String) : Bool := lexLe a.toList b.toList

/-- Does the char list start with the given pattern list. -/
def startsW : List Char → List Char → Bool
  | _, [] => true
  | [], _ :: _ => false
  | a :: as, b :: bs => (a == b) && startsW as bs

/-- Substring containment on char lists. -/
def containsSub : List Char → List Char → Bool
  | [], needle => needle.isEmpty
  | h :: t, needle => startsW (h :: t) needle || containsSub t needle

/-- All suffixes of a char list, the list itself first and the empty
suffix last. -/
def tailsL : List Char → List (List Char)
  | [] => [[]]
  | c :: t => (c :: t) :: tailsL t

/-- SQLite LIKE pattern matching: the pattern must cover the whole text,
`%` matches any (possibly empty) sequence, `_` matches exactly one
character, and a literal character matches ASCII-case-insensitively
(`Char.toLower` lowers exactly the ASCII range, as SQLite LIKE does;
without an ESCAPE clause no character is escaped). -/
def likeMatch : List Char → List Char → Bool
  | [], t => t.isEmpty
  | p :: ps, t =>
    if p = '%' then (tailsL t).any (fun s => likeMatch ps s)
    else if p = '_' then
      match t with
      | [] => false
      | _ :: ts => likeMatch ps ts
    else
      match t with
      | [] => false
      | c :: ts => (p.toLower == c.toLower) && likeMatch ps ts

/-- `col LIKE ?` with the pattern `"%" + pat + "%"` the fetch helpers
build (src/streamlit_app.py:125,198): wildcards inside `pat` keep their
LIKE meaning. -/
def likeContains (pat col : String) : Bool :=
  likeMatch ('%' :: (pat.toList ++ ['%'])) col.toList

/-- Python str.strip() with no argument: remove leading and trailing
whitespace. -/
def pyStrip (s : String) : String :=
  String.mk (((s.toList.dropWhile Char.isWhitespace).reverse.dropWhile
    Char.isWhitespace).reverse)

/-- Python " | ".join over a list of parts (import_from_excel,
src/scripts/import_excel.py:78-83). -/
def joinBar : List String → String
  | [] => ""
  | [x] => x
  | x :: y :: xs => x ++ " | " ++ joinBar (y :: xs)

/-! ### Data model

Rows of the three tables created by init_db (src/streamlit_app.py:32-98).
All data columns are TEXT and every writer in the program inserts strings,
so the fields are modelled as `String`; the integer primary keys as `Nat`.
-/

/-- A row of the stations table (init_db, src/streamlit_app.py:56-73). -/
structure Station where
  id : Nat
  name : String
  location : String
  type : String
  frequency : String
  power : String
  status : String
  contact : String
  notes : String
  region : String
  pdf_file : String
  photo_file : String
deriving Repr, DecidableEq

/-- A row of the employees table (init_db, src/streamlit_app.py:37-54). -/
structure Employee where
  id : Nat
  rakami_tabel : String
  last_name : String
  first_name : String
  nasab : String
  makon : String
  sanai_kabul : String
  vazifa : String
  phone : String
  dog_no : String
  pdf_file : String
  photo_file : String
deriving Repr, DecidableEq

/-- A row of the station_maintenance table (init_db,
src/streamlit_app.py:81-95).  created_at is the server-assigned insert
timestamp, monotonic per insert, modelled as a `Nat`. -/
structure MaintenanceRecord where
  id : Nat
  station_id : Nat
  maintenance_date : String
  maintenance_type : String
  parts_replaced : String
  notes : String
  user_name : String
  created_at : Nat
deriving Repr, DecidableEq

/-! ### Repository layer -/

/-- Typed outcome of a failed insert: the UNIQUE column constraint declared
by init_db rejects a duplicate business key (sqlite3.IntegrityError at the
call site of add_station / add_employee). -/
inductive DbError
  | DuplicateKey
deriving Repr, DecidableEq

/-- The positional payload tuple of add_station / update_station
(src/streamlit_app.py:222-248). -/
structure StationData where
  name : String
  location : String
  type : String
  frequency : String
  power : String
  status : String
  contact : String
  notes : String
  region : String
  pdf_file : String
  photo_file : String
deriving Repr, DecidableEq

/-- The positional payload tuple of add_employee / update_employee
(src/streamlit_app.py:149-175). -/
structure EmployeeData where
  rakami_tabel : String
  last_name : String
  first_name : String
  nasab : String
  makon : String
  sanai_kabul : String
  vazifa : String
  phone : String
  dog_no : String
  pdf_file : String
  photo_file : String
deriving Repr, DecidableEq

/-- AUTOINCREMENT: a fresh id strictly larger than every existing id. -/
def freshId (ids : List Nat) : Nat := (ids.foldl max 0) + 1

/-- INSERT INTO stations (add_station, src/streamlit_app.py:222-233): the
UNIQUE constraint on name (init_db, line 60) makes an insert carrying an
existing name fail, leaving the table unchanged; otherwise the row is
appended with a fresh id. -/
def add_station (d : StationData) (db : List Station) :
    Except DbError (List Station) :=
  if db.any (fun r => r.name == d.name) then .error .DuplicateKey
  else .ok (db ++ [⟨freshId (db.map (fun r => r.id)), d.name, d.location,
    d.type, d.frequency, d.power, d.status, d.contact, d.notes, d.region,
    d.pdf_file, d.photo_file⟩])

/-- INSERT INTO employees (add_employee, src/streamlit_app.py:149-160): the
UNIQUE constraint on rakami_tabel (init_db, line 41) rejects a duplicate
tabel number. -/
def add_employee (d : EmployeeData) (db : List Employee) :
    Except DbError (List Employee) :=
  if db.any (fun r => r.rakami_tabel == d.rakami_tabel) then
    .error .DuplicateKey
  else .ok (db ++ [⟨freshId (db.map (fun r => r.id)), d.rakami_tabel,
    d.last_name, d.first_name, d.nasab, d.makon, d.sanai_kabul, d.vazifa,
    d.phone, d.dog_no, d.pdf_file, d.photo_file⟩])

/-- The station table a caller is left with after an add: the new table on
success, the untouched previous table on failure. -/
def stationsAfterAdd (res : Except DbError (List Station))
    (db : List Station) : List Station :=
  match res with
  | .ok db2 => db2
  | .error _ => db

/-- The employee table a caller is left with after an add. -/
def employeesAfterAdd (res : Except DbError (List Employee))
    (db : List Employee) : List Employee :=
  match res with
  | .ok db2 => db2
  | .error _ => db

/-- UPDATE stations SET ... WHERE id=? (update_station,
src/streamlit_app.py:236-248): every field of the matching row is replaced
by the payload. -/
def update_station (station_id : Nat) (d : StationData)
    (db : List Station) : List Station :=
  db.map (fun r =>
    if r.id == station_id then
      ⟨r.id, d.name, d.location, d.type, d.frequency, d.power, d.status,
        d.contact, d.notes, d.region, d.pdf_file, d.photo_file⟩
    else r)

/-- DELETE FROM stations WHERE id=? (delete_station,
src/streamlit_app.py:251-256): hard delete, touching only the stations
table — nothing cascades to station_maintenance. -/
def delete_station (station_id : Nat) (db : List Station) : List Station :=
  db.filter (fun r => r.id != station_id)

/-! ### Maintenance aggregator -/

/-- INSERT INTO station_maintenance (add_maintenance_record,
src/streamlit_app.py:261-274).  maintenance_date is the process clock
current day, passed in here explicitly as `today`; created_at is the
server-assigned insert timestamp. -/
def add_maintenance_record (station_id : Nat)
    (maintenance_type parts_replaced notes user_name : String)
    (today : String) (db : List MaintenanceRecord) :
    List MaintenanceRecord :=
  db ++ [⟨freshId (db.map (fun r => r.id)), station_id, today,
    maintenance_type, parts_replaced, notes, user_name, db.length⟩]

/-- The result shape of get_maintenance_stats: SUM over an empty row set
is SQL NULL, surfaced to Python as None, modelled as `none`. -/
structure DailyStats where
  date : String
  total_maintained : Nat
  repairs : Option Nat
  services : Option Nat
deriving Repr, DecidableEq

/-- get_maintenance_stats (src/streamlit_app.py:313-340):
COUNT(DISTINCT station_id), SUM(CASE WHEN maintenance_type='repair' THEN 1
ELSE 0 END) and SUM(CASE WHEN maintenance_type='service' THEN 1 ELSE 0 END)
over the rows whose maintenance_date equals the requested day.  COUNT over
no rows is 0, SUM over no rows is NULL. -/
def get_maintenance_stats (date_str : String)
    (db : List MaintenanceRecord) : DailyStats :=
  let rows := db.filter (fun r => r.maintenance_date == date_str)
  { date := date_str
    total_maintained := ((rows.map (fun r => r.station_id)).dedup).length
    repairs :=
      if rows.isEmpty then none
      else some (rows.countP (fun r => r.maintenance_type == "repair"))
    services :=
      if rows.isEmpty then none
      else some (rows.countP (fun r => r.maintenance_type == "service")) }

/-- A row of the get_maintenance_records result: sm.* joined with the live
station name and region. -/
structure MaintRow where
  mrec : MaintenanceRecord
  station_name : String
  station_region : String
deriving Repr, DecidableEq

/-- Descending (maintenance_date, created_at) order used by
get_maintenance_records: ORDER BY sm.maintenance_date DESC,
sm.created_at DESC. -/
def maintRowBefore (a b : MaintRow) : Prop :=
  (if a.mrec.maintenance_date == b.mrec.maintenance_date then
    Nat.ble b.mrec.created_at a.mrec.created_at
  else strLe b.mrec.maintenance_date a.mrec.maintenance_date) = true

instance : DecidableRel maintRowBefore := fun _ _ =>
  inferInstanceAs (Decidable (_ = true))

/-- get_maintenance_records (src/streamlit_app.py:277-310):
SELECT sm.*, s.name, s.region FROM station_maintenance sm JOIN stations s
ON sm.station_id = s.id, with three optional filters ANDed together, ORDER
BY sm.maintenance_date DESC, sm.created_at DESC.  The INNER JOIN keeps only
records whose station_id matches a live station row.  A filter argument is
applied exactly when its Python value is truthy: a nonzero station id, a
nonempty date, a region that is nonempty and not the sentinel.  -/
def get_maintenance_records (station_id : Option Nat)
    (date_filter : Option String) (region_filter : Option String)
    (stations : List Station) (maint : List MaintenanceRecord) :
    List MaintRow :=
  let joined : List MaintRow := maint.flatMap (fun r =>
    (stations.filter (fun s => s.id == r.station_id)).map
      (fun s => MaintRow.mk r s.name s.region))
  let f1 : List MaintRow := match station_id with
    | some sid => if sid != 0 then
        joined.filter (fun x => x.mrec.station_id == sid) else joined
    | none => joined
  let f2 : List MaintRow := match date_filter with
    | some d => if d != "" then
        f1.filter (fun x => x.mrec.maintenance_date == d) else f1
    | none => f1
  let f3 : List MaintRow := match region_filter with
    | some rf => if rf != "" && rf != "Все" then
        f2.filter (fun x => x.station_region == rf) else f2
    | none => f2
  f3.insertionSort maintRowBefore

/-- Ascending binary-collation order on plain strings, used for GROUP BY /
ORDER BY region. -/
def strLeP (a b : String) : Prop := strLe a b = true

instance : DecidableRel strLeP := fun _ _ =>
  inferInstanceAs (Decidable (_ = true))

/-- get_maintenance_stats_by_region (src/streamlit_app.py:343-376): join of
station_maintenance with the live stations table on station_id, restricted
to the requested day (and optionally one region), grouped by the station
current region, each group carrying COUNT(DISTINCT sm.station_id) and the
two SUM(CASE ...) counters, ordered by region ascending.  A group always
holds at least one row, so its SUMs are plain numbers. -/
def get_maintenance_stats_by_region (date_str : String)
    (region_filter : Option String) (stations : List Station)
    (maint : List MaintenanceRecord) :
    List (String × Nat × Nat × Nat) :=
  let joined : List (String × MaintenanceRecord) := maint.flatMap (fun r =>
    (stations.filter (fun s => s.id == r.station_id)).map
      (fun s => (s.region, r)))
  let dated := joined.filter (fun x => x.2.maintenance_date == date_str)
  let inScope : List (String × MaintenanceRecord) := match region_filter with
    | some rf => if rf != "" && rf != "Все" then
        dated.filter (fun x => x.1 == rf) else dated
    | none => dated
  let regions := ((inScope.map (fun x => x.1)).dedup).insertionSort strLeP
  regions.map (fun g =>
    let rows := inScope.filter (fun x => x.1 == g)
    (g, ((rows.map (fun x => x.2.station_id)).dedup).length,
      rows.countP (fun x => x.2.maintenance_type == "repair"),
      rows.countP (fun x => x.2.maintenance_type == "service")))

/-! ### Filtered fetch -/

/-- The OR of the four station LIKE conditions (fetch_stations,
src/streamlit_app.py:199). -/
def stationLikeHit (pat : String) (r : Station) : Bool :=
  likeContains pat r.name || likeContains pat r.location ||
    likeContains pat r.contact || likeContains pat r.notes

/-- The OR of the five employee LIKE conditions (fetch_employees,
src/streamlit_app.py:126). -/
def employeeLikeHit (pat : String) (r : Employee) : Bool :=
  likeContains pat r.rakami_tabel || likeContains pat r.last_name ||
    likeContains pat r.first_name || likeContains pat r.nasab ||
    likeContains pat r.phone

/-- ORDER BY name ASC on stations. -/
def stationLe (a b : Station) : Prop := strLe a.name b.name = true

instance : DecidableRel stationLe := fun _ _ =>
  inferInstanceAs (Decidable (_ = true))

/-- ORDER BY rakami_tabel ASC on employees. -/
def employeeLe (a b : Employee) : Prop :=
  strLe a.rakami_tabel b.rakami_tabel = true

instance : DecidableRel employeeLe := fun _ _ =>
  inferInstanceAs (Decidable (_ = true))

/-- fetch_stations (src/streamlit_app.py:188-207): the WHERE clause is
assembled from an optional exact region condition (skipped for an empty
region or the sentinel "Все") and an optional LIKE condition over name,
location, contact and notes built from the stripped search text (skipped
for empty search text); the conditions are ANDed and the result ordered by
name ascending. -/
def fetch_stations (search region : String) (db : List Station) :
    List Station :=
  let conds : List (Station → Bool) :=
    (if region != "" && region != "Все" then
      [fun r => r.region == region] else []) ++
    (if search != "" then [fun r => stationLikeHit (pyStrip search) r]
      else [])
  (db.filter (fun r => conds.all (fun c => c r))).insertionSort stationLe

/-- fetch_employees (src/streamlit_app.py:115-134): same construction with
the region condition on makon, the LIKE condition over rakami_tabel, last
name, first name, patronymic and phone, ordered by rakami_tabel. -/
def fetch_employees (search region : String) (db : List Employee) :
    List Employee :=
  let conds : List (Employee → Bool) :=
    (if region != "" && region != "Все" then
      [fun r => r.makon == region] else []) ++
    (if search != "" then [fun r => employeeLikeHit (pyStrip search) r]
      else [])
  (db.filter (fun r => conds.all (fun c => c r))).insertionSort employeeLe

/-! ### Reporting view-model (main, src/streamlit_app.py:1071-1131) -/

/-- Increment the counter stored under a key in an insertion-ordered
association list, modelling the Python dict update
`d[k] = d.get(k, 0) + 1`. -/
def bumpCount (m : List (String × Nat)) (k : String) :
    List (String × Nat) :=
  match m with
  | [] => [(k, 1)]
  | (k1, v) :: rest =>
    if k1 == k then (k1, v + 1) :: rest else (k1, v) :: bumpCount rest k

/-- Counter value under a key, 0 when absent. -/
def lookupCount (m : List (String × Nat)) (k : String) : Nat :=
  match m.find? (fun p => p.1 == k) with
  | some p => p.2
  | none => 0

/-- Region histogram of the report page (main,
src/streamlit_app.py:1076-1085): one bucket per value of
`station[9] or "Неизвестно"` — a falsy (blank) region falls into the
Unknown bucket, any other string keys its own bucket. -/
def region_stats (db : List Station) : List (String × Nat) :=
  db.foldl (fun m s =>
    bumpCount m (if s.region == "" then "Неизвестно" else s.region)) []

/-- The effective region a station is counted under in the histogram. -/
def effRegion (s : Station) : String :=
  if s.region == "" then "Неизвестно" else s.region

/-- The region values the UI recognizes (report filter, main,
src/streamlit_app.py:1139). -/
def recognizedRegions : List String :=
  ["РРП", "ВМКБ", "РУХО", "РУСО", "Душанбе"]

/-- Python round(x, 1) at the tenths: round half to even. -/
def roundHalfEven (q : ℚ) : ℤ :=
  if q - Int.floor q = (1 : ℚ) / 2 then
    (if Int.floor q % 2 = 0 then Int.floor q else Int.floor q + 1)
  else round q

/-- Round a rational to one decimal place the way Python round(x, 1)
does. -/
def round1 (q : ℚ) : ℚ := (roundHalfEven (q * 10) : ℚ) / 10

/-- Availability metric of the report page (main,
src/streamlit_app.py:1119-1131):
`round(active / total * 100, 1) if total > 0 else 0` where active counts
stations whose status is the Active label. -/
def availability (db : List Station) : ℚ :=
  let total := db.length
  let active := (db.filter (fun s => s.status == "Активна")).length
  if 0 < total then round1 ((active : ℚ) / (total : ℚ) * 100) else 0

/-! ### Attachment file names (safe_write_file,
src/streamlit_app.py:381-397)

The directory is modelled abstractly as the list of file names already
present; a write stores a name and returns the updated directory.
-/

/-- A character the sanitizing regex keeps: the class `[\w\-\.]` of
re.sub(r"[^\w\-\.]+", "_", root), with the word class taken over ASCII. -/
def keptChar (c : Char) : Bool :=
  c.isAlphanum || c == '_' || c == '-' || c == '.'

/-- Dropping a prefix never lengthens a list. -/
theorem dropWhileLenLe (p : Char → Bool) (l : List Char) :
    (l.dropWhile p).length ≤ l.length := by
  induction l with
  | nil => simp
  | cons c t ih =>
    by_cases h : p c
    · simp [List.dropWhile, h]; omega
    · simp [List.dropWhile, h]

/-- re.sub(r"[^\w\-\.]+", "_", root): every maximal run of characters
outside the kept class collapses to a single underscore. -/
def collapseRuns : List Char → List Char
  | [] => []
  | c :: rest =>
    if keptChar c then c :: collapseRuns rest
    else '_' :: collapseRuns (rest.dropWhile (fun d => !keptChar d))
termination_by l => l.length
decreasing_by
  all_goals simp
  exact Nat.lt_succ_of_le (dropWhileLenLe _ _)

/-- Python str.strip("._"): remove leading and trailing dots and
underscores. -/
def stripDotUnderscore (l : List Char) : List Char :=
  ((l.dropWhile (fun c => c == '.' || c == '_')).reverse.dropWhile
    (fun c => c == '.' || c == '_')).reverse

/-- The sanitized root of safe_write_file:
`re.sub(r"[^\w\-\.]+", "_", root).strip("._") or "file"`. -/
def sanitizeRoot (s : String) : String :=
  let r := stripDotUnderscore (collapseRuns s.toList)
  if r.isEmpty then "file" else String.mk r

/-- Index of the last dot of the char list, if any. -/
def lastDotIdx (cs : List Char) : Option Nat :=
  (List.range cs.length).foldl
    (fun acc i => if cs.getD i ' ' == '.' then some i else acc) none

/-- os.path.splitext for a bare file name: split off the extension at the
last dot, unless every character before that dot is itself a dot (a purely
leading dot run, as in ".bashrc", yields no extension). -/
def splitext (s : String) : String × String :=
  let cs := s.toList
  match lastDotIdx cs with
  | none => (s, "")
  | some i =>
    if (cs.takeWhile (fun c => c == '.')).length < i then
      (String.mk (cs.take i), String.mk (cs.drop i))
    else (s, "")

/-- Decimal digits of a natural number, most significant first, as Python
renders a number into an f-string. -/
def natDigs (n : Nat) : List Char :=
  if n < 10 then [Nat.digitChar n]
  else natDigs (n / 10) ++ [Nat.digitChar (n % 10)]
termination_by n
decreasing_by
  exact Nat.div_lt_self (by omega) (by omega)

/-- Numeric value of a decimal digit character. -/
def digVal (c : Char) : Nat := c.toNat - 48

/-- Numeric value of a decimal digit string. -/
def digsVal (l : List Char) : Nat := l.foldl (fun a c => 10 * a + digVal c) 0

/-- The i-th probed candidate name `f"{root}_{i}{ext}"` of the
safe_write_file collision loop. -/
def mkCand (root ext : String) (i : Nat) : String :=
  root ++ "_" ++ String.mk (natDigs i) ++ ext

/-- The collision loop of safe_write_file: probe the candidate names for
the successive indices and return the first one not present in the
directory. -/
def probeCands (dir : List String) (root ext : String) :
    List Nat → String
  | [] => root ++ ext
  | i :: rest =>
    if mkCand root ext i ∈ dir then probeCands dir root ext rest
    else mkCand root ext i

/-- safe_write_file (src/streamlit_app.py:381-397): split the hint into
root and extension, sanitize the root, and store under `root + ext`, or —
when that name exists — under the first free `root_i + ext` for
i = 1, 2, ....  The directory is finite and the candidate names are
pairwise distinct, so a free name always lies within the first
`dir.length + 1` indices; the loop is modelled over that index range.
Returns the stored name and the directory after the write. -/
def safe_write_file (dir : List String) (filename_hint : String) :
    String × List String :=
  let p := splitext filename_hint
  let root := sanitizeRoot p.1
  let ext := p.2
  let first := root ++ ext
  let stored :=
    if first ∈ dir then
      probeCands dir root ext (List.range' 1 (dir.length + 1))
    else first
  (stored, stored :: dir)

/-! ### Excel bulk import (import_from_excel,
src/scripts/import_excel.py:39-98) -/

/-- One data row of the Excel sheet: the six columns read by
import_from_excel.  pandas renders a missing column as "" and an empty
(NaN) cell as "nan" once passed through str(); the importer then strips
each value. -/
structure ExcelRow where
  number : String
  station_name : String
  frequency_info : String
  region : String
  station_type : String
  location : String
deriving Repr, DecidableEq

/-- A value the importer treats as absent after str()+strip(). -/
def blankish (s : String) : Bool := s == "" || s == "nan"

/-- Processing of one Excel row (import_from_excel,
src/scripts/import_excel.py:39-98): skip a row without a station name,
skip a row whose station name already exists, default a missing region to
"РРП" and a missing type to "Базовая", blank out missing frequency and
location, synthesize notes by joining the record-number tag and the
frequency info with " | ", and insert the station with status "Активна". -/
def import_excel_row (db : List Station) (row : ExcelRow) : List Station :=
  let station_number := pyStrip row.number
  let station_name := pyStrip row.station_name
  let frequency_info := pyStrip row.frequency_info
  let region0 := pyStrip row.region
  let station_type0 := pyStrip row.station_type
  let location0 := pyStrip row.location
  if blankish station_name then db
  else if db.any (fun r => r.name == station_name) then db
  else
    let region := if blankish region0 then "РРП" else region0
    let station_type := if blankish station_type0 then "Базовая"
      else station_type0
    let frequency := if frequency_info != "nan" then frequency_info else ""
    let location := if location0 == "nan" then "" else location0
    let notes_parts :=
      (if !blankish station_number then ["№" ++ station_number] else []) ++
      (if !blankish frequency_info then [frequency_info] else [])
    let notes := joinBar notes_parts
    stationsAfterAdd
      (add_station ⟨station_name, location, station_type, frequency, "",
        "Активна", "", notes, region, "", ""⟩ db) db

/-! ## Claims -/

/-- C10: for a date on which no maintenance record exists,
get_maintenance_stats returns total_maintained = 0 while repairs and
services are the SQL NULL (Python None) produced by SUM over an empty row
set, not the number 0. -/
theorem stats_empty_date (recs : List MaintenanceRecord) (D : String)
    (h : ∀ r ∈ recs, r.maintenance_date ≠ D) :
    get_maintenance_stats D recs = ⟨D, 0, none, none⟩ := by
  have hf : recs.filter (fun r => r.maintenance_date == D) = [] := by
    rw [List.filter_eq_nil_iff]
    intro r hr
    simpa using h r hr
  unfold get_maintenance_stats
  simp [hf]

theorem stats_empty_date_witness :
    get_maintenance_stats "2024-01-02"
      [⟨1, 1, "2024-01-01", "repair", "", "", "admin", 0⟩] =
      ⟨"2024-01-02", 0, none, none⟩ :=
  stats_empty_date _ _ (by decide)

/-- C2: when a live row already holds the business key (station name or
employee tabel number), a subsequent add fails with DuplicateKey and the
table the caller is left with is exactly the table before the failed
call. -/
theorem add_duplicate_key_rejected :
    (∀ (db : List Station) (d : StationData),
      (∃ r ∈ db, r.name = d.name) →
      add_station d db = .error .DuplicateKey ∧
        stationsAfterAdd (add_station d db) db = db) ∧
    (∀ (db : List Employee) (d : EmployeeData),
      (∃ r ∈ db, r.rakami_tabel = d.rakami_tabel) →
      add_employee d db = .error .DuplicateKey ∧
        employeesAfterAdd (add_employee d db) db = db) := by
  constructor
  · intro db d h
    have hdup : db.any (fun r => r.name == d.name) = true := by
      rcases h with ⟨r, hr, he⟩
      exact List.any_eq_true.mpr ⟨r, hr, by simpa using he⟩
    refine ⟨?_, ?_⟩
    · unfold add_station
      simp [hdup]
    · unfold stationsAfterAdd add_station
      simp [hdup]
  · intro db d h
    have hdup : db.any (fun r => r.rakami_tabel == d.rakami_tabel) = true := by
      rcases h with ⟨r, hr, he⟩
      exact List.any_eq_true.mpr ⟨r, hr, by simpa using he⟩
    refine ⟨?_, ?_⟩
    · unfold add_employee
      simp [hdup]
    · unfold employeesAfterAdd add_employee
      simp [hdup]

theorem add_duplicate_key_rejected_witness :
    add_station
      ⟨"Станция-1", "", "Базовая", "", "", "Активна", "", "", "РРП", "", ""⟩
      [⟨1, "Станция-1", "x", "t", "f", "p", "s", "c", "n", "r", "", ""⟩] =
      .error .DuplicateKey :=
  (add_duplicate_key_rejected.1 _ _ ⟨_, List.mem_singleton_self _, rfl⟩).1

/-- The three-station table of the availability example: one active, two
not. -/
def threeStations : List Station :=
  [⟨1, "s1", "", "Базовая", "", "", "Активна", "", "", "РРП", "", ""⟩,
   ⟨2, "s2", "", "Базовая", "", "", "Неактивна", "", "", "РРП", "", ""⟩,
   ⟨3, "s3", "", "Базовая", "", "", "Резерв", "", "", "РРП", "", ""⟩]

/-- C6: availability is activeCount / totalCount * 100 rounded to one
decimal place, is 0 (with no division error) on an empty station set, and
is 33.3 on 3 stations of which 1 is active. -/
theorem availability_correct :
    availability [] = 0 ∧
    availability threeStations = 33.3 ∧
    (∀ db : List Station, db ≠ [] →
      availability db =
        round1 ((((db.filter (fun s => s.status == "Активна")).length : ℚ) /
          (db.length : ℚ)) * 100)) := by
  refine ⟨rfl, ?_, ?_⟩
  · have hfiltN : (threeStations.filter
        (fun s => s.status == "Активна")).length = 1 := by decide
    have hfilt : ((threeStations.filter
        (fun s => s.status == "Активна")).length : ℚ) = 1 := by
      rw [hfiltN]; norm_num
    have hlen : ((threeStations.length : ℕ) : ℚ) = 3 := by
      norm_num [threeStations]
    unfold availability
    rw [if_pos (by decide), hfilt, hlen]
    have hf : ⌊(1 : ℚ) / 3 * 100 * 10⌋ = 333 := by
      rw [Int.floor_eq_iff]
      norm_num
    have hr : round ((1 : ℚ) / 3 * 100 * 10) = 333 := by
      rw [round_eq, Int.floor_eq_iff]
      norm_num
    unfold round1 roundHalfEven
    rw [hf, hr, if_neg (by norm_num)]
    norm_num
  · intro db hdb
    unfold availability
    rw [if_pos (List.length_pos.mpr hdb)]

theorem availability_correct_witness :
    availability threeStations = 33.3 ∧
    availability threeStations =
      round1 ((((threeStations.filter
        (fun s => s.status == "Активна")).length : ℚ) /
        (threeStations.length : ℚ)) * 100) :=
  ⟨availability_correct.2.1,
    availability_correct.2.2 threeStations (by decide)⟩

/-- C9: bulk-import row handling.  A row whose station name already lives
in the store is skipped without touching the store; otherwise the row is
appended as one station for which a missing region defaults to "РРП", a
missing type defaults to "Базовая", and the notes field is the
record-number tag joined to the frequency info with " | " when both are
present. -/
theorem import_row_rules :
    (∀ (db : List Station) (row : ExcelRow),
      db.any (fun r => r.name == pyStrip row.station_name) = true →
      import_excel_row db row = db) ∧
    (∀ (db : List Station) (row : ExcelRow),
      blankish (pyStrip row.station_name) = false →
      db.any (fun r => r.name == pyStrip row.station_name) = false →
      ∃ st : Station,
        import_excel_row db row = db ++ [st] ∧
        (blankish (pyStrip row.region) = true → st.region = "РРП") ∧
        (blankish (pyStrip row.station_type) = true →
          st.type = "Базовая") ∧
        (blankish (pyStrip row.number) = false →
          blankish (pyStrip row.frequency_info) = false →
          st.notes = "№" ++ pyStrip row.number ++ " | " ++
            pyStrip row.frequency_info)) := by
  constructor
  · intro db row hdup
    unfold import_excel_row
    by_cases hb : blankish (pyStrip row.station_name)
    · simp [hb]
    · simp [hb, hdup]
  · intro db row hname hdup
    refine ⟨⟨freshId (db.map (fun r => r.id)), pyStrip row.station_name,
      (if (pyStrip row.location == "nan") then "" else pyStrip row.location),
      (if blankish (pyStrip row.station_type) then "Базовая"
        else pyStrip row.station_type),
      (if (pyStrip row.frequency_info != "nan") then
        pyStrip row.frequency_info else ""),
      "", "Активна", "",
      joinBar ((if !blankish (pyStrip row.number) then
          ["№" ++ pyStrip row.number] else []) ++
        (if !blankish (pyStrip row.frequency_info) then
          [pyStrip row.frequency_info] else [])),
      (if blankish (pyStrip row.region) then "РРП" else pyStrip row.region),
      "", ""⟩, ?_, ?_, ?_, ?_⟩
    · simp only [import_excel_row, hname, hdup, Bool.false_eq_true,
        if_false, stationsAfterAdd, add_station]
    · intro h
      simp only [h]
      simp
    · intro h
      simp only [h]
      simp
    · intro h1 h2
      simp only [h1, h2]
      simp [joinBar]

theorem import_row_rules_witness :
    import_excel_row
      [⟨1, "Станция-Х", "старое", "Ретранслятор", "", "", "Резерв", "",
        "старые заметки", "ВМКБ", "", ""⟩]
      ⟨"5", "Станция-Х", "2G, 3G", "", "", ""⟩ =
      [⟨1, "Станция-Х", "старое", "Ретранслятор", "", "", "Резерв", "",
        "старые заметки", "ВМКБ", "", ""⟩] :=
  import_row_rules.1 _ _ (by decide)

/-- The station and maintenance record of the orphaned-records scenario. -/
def c3Station : Station :=
  ⟨1, "Станция-1", "", "Базовая", "", "", "Активна", "", "", "РРП", "", ""⟩

/-- A maintenance record of station 1. -/
def c3Record : MaintenanceRecord :=
  ⟨1, 1, "2024-01-01", "repair", "", "", "admin", 0⟩

/-- C3 counterexample: station 1 has a maintenance record; after deleting
the station, querying the records filtered on station_id = 1 returns the
empty list — the record is NOT returned with an orphaned/unknown station
label, contradicting the claim that all of the station records stay
queryable through this call. -/
theorem delete_cascade_counterexample :
    delete_station 1 [c3Station] = [] ∧
    get_maintenance_records (some 1) none none
      (delete_station 1 [c3Station]) [c3Record] = [] := by
  constructor
  · decide
  · decide

/-- C3 amended: deleting a station does not cascade (the stations table
loses exactly the rows with that id and the maintenance table is
untouched), and the query does not throw — but because
get_maintenance_records INNER-JOINs the live stations table, the orphaned
records vanish from its result: filtering on the deleted station id
returns the empty list. -/
theorem delete_no_cascade_join_drops (stations : List Station)
    (maint : List MaintenanceRecord) (sid : Nat) (hsid : sid ≠ 0) :
    (∀ st ∈ delete_station sid stations, st.id ≠ sid) ∧
    get_maintenance_records (some sid) none none
      (delete_station sid stations) maint = [] := by
  constructor
  · intro st hst
    have := List.of_mem_filter hst
    simpa using this
  · have hs : (sid != 0) = true := by simpa using hsid
    simp only [get_maintenance_records, hs, if_true]
    have hfil :
        (maint.flatMap (fun r =>
          (List.filter (fun s => s.id == r.station_id)
            (delete_station sid stations)).map
            (fun s => MaintRow.mk r s.name s.region))).filter
          (fun x => x.mrec.station_id == sid) = [] := by
      rw [List.filter_eq_nil_iff]
      intro x hx
      rw [List.mem_flatMap] at hx
      obtain ⟨r, _, hx2⟩ := hx
      rw [List.mem_map] at hx2
      obtain ⟨s, hs2, rfl⟩ := hx2
      have h1 := List.of_mem_filter hs2
      have h2 := List.of_mem_filter (List.mem_of_mem_filter hs2)
      simp only [beq_iff_eq] at h1
      simp only [bne_iff_ne, ne_eq] at h2
      simp only [beq_iff_eq]
      intro hcon
      exact h2 (h1.symm ▸ hcon)
    rw [hfil]
    rfl

theorem delete_no_cascade_join_drops_witness :
    (∀ st ∈ delete_station 1 [c3Station], st.id ≠ 1) ∧
    get_maintenance_records (some 1) none none
      (delete_station 1 [c3Station]) [c3Record] = [] :=
  delete_no_cascade_join_drops [c3Station] [c3Record] 1 (by decide)

/-- A station whose region value is not one of the recognized enum
values. -/
def c7Station : Station :=
  ⟨1, "Станция-Согд", "", "Базовая", "", "", "Активна", "", "", "Согд",
    "", ""⟩

/-- C7 counterexample: a station carrying the unrecognized (non-blank)
region "Согд" is NOT counted in the "Неизвестно" (Unknown) bucket — it
forms its own bucket keyed by the raw value, contradicting the claim that
every unrecognized region value lands in a single Unknown bucket. -/
theorem region_histogram_counterexample :
    ("Согд" ∉ recognizedRegions ∧ "Согд" ≠ "") ∧
    region_stats [c7Station] = [("Согд", 1)] ∧
    lookupCount (region_stats [c7Station]) "Неизвестно" = 0 := by
  refine ⟨by decide, by decide, by decide⟩

/-- Counting helper: bumping a key changes exactly that key's counter. -/
theorem lookupCount_bumpCount (m : List (String × Nat)) (k r : String) :
    lookupCount (bumpCount m k) r =
      lookupCount m r + (if k == r then 1 else 0) := by
  induction m with
  | nil =>
    by_cases h : k = r
    · subst h; simp [bumpCount, lookupCount, List.find?]
    · have hb : (k == r) = false := by simpa using h
      simp [bumpCount, lookupCount, List.find?, hb]
  | cons p rest ih =>
    obtain ⟨k1, v⟩ := p
    by_cases h1 : k1 = k
    · subst h1
      by_cases h2 : k1 = r
      · subst h2
        simp [bumpCount, lookupCount, List.find?]
      · have hb2 : (k1 == r) = false := by simpa using h2
        simp [bumpCount, lookupCount, List.find?, hb2]
    · have hb1 : (k1 == k) = false := by simpa using h1
      by_cases h2 : k1 = r
      · have hb2t : (k1 == r) = true := by simpa using h2
        have hb3 : (k == r) = false := by
          have hkr : ¬k = r := fun hc => h1 (h2.trans hc.symm)
          simpa using hkr
        simp [bumpCount, lookupCount, List.find?, hb1, hb2t, hb3]
      · have hb2 : (k1 == r) = false := by simpa using h2
        simp only [bumpCount, hb1, if_false]
        simp only [lookupCount, List.find?, hb2]
        simpa [lookupCount] using ih

/-- Folding the histogram over rows adds the per-row contributions. -/
theorem lookupCount_foldl (db : List Station) (m : List (String × Nat))
    (r : String) :
    lookupCount (db.foldl (fun m s => bumpCount m (effRegion s)) m) r =
      lookupCount m r + db.countP (fun s => effRegion s == r) := by
  induction db generalizing m with
  | nil => simp
  | cons s rest ih =>
    simp only [List.foldl_cons, List.countP_cons]
    rw [ih, lookupCount_bumpCount]
    by_cases h : effRegion s == r
    · simp [h]; omega
    · simp only [Bool.not_eq_true] at h
      simp [h]

/-- C7 amended: the report region histogram counts, for every key, exactly
the stations whose effective region is that key, where the effective
region is the Unknown label "Неизвестно" for a blank region and the raw
region value (recognized or not) otherwise; non-blank unrecognized values
form their own buckets. -/
theorem region_histogram_blank_unknown (db : List Station) (r : String) :
    lookupCount (region_stats db) r =
      db.countP (fun s => effRegion s == r) := by
  have h := lookupCount_foldl db [] r
  simpa [region_stats, effRegion, lookupCount] using h

/-- Counting through a filter is counting a conjunction. -/
theorem countP_filter_and (p q : MaintenanceRecord → Bool)
    (l : List MaintenanceRecord) :
    (l.filter q).countP p = l.countP (fun a => q a && p a) := by
  induction l with
  | nil => simp
  | cons a t ih =>
    by_cases h : q a
    · by_cases h2 : p a
      · simp [List.filter_cons, List.countP_cons, h, h2, ih]
      · simp [List.filter_cons, List.countP_cons, h, h2, ih]
    · simp [List.filter_cons, List.countP_cons, h, ih]

/-- C1: dailyStats counts distinct station ids with at least one record on
the date regardless of type, and counts repair records and service records
on the date by type; in the concrete scenario — Repair and Service for
station S and Service for station T, all on date D over a store with no
other record on D — it reports 2 distinct stations serviced, 1 repair and
2 services. -/
theorem daily_stats_correct :
    (∀ (recs : List MaintenanceRecord) (D : String),
      (get_maintenance_stats D recs).total_maintained =
        ((recs.filter (fun r => r.maintenance_date == D)).map
          (fun r => r.station_id)).toFinset.card ∧
      (recs.filter (fun r => r.maintenance_date == D) ≠ [] →
        (get_maintenance_stats D recs).repairs =
          some (recs.countP (fun r =>
            r.maintenance_date == D && r.maintenance_type == "repair")) ∧
        (get_maintenance_stats D recs).services =
          some (recs.countP (fun r =>
            r.maintenance_date == D &&
              r.maintenance_type == "service")))) ∧
    (∀ (prior : List MaintenanceRecord) (S T : Nat)
      (D parts n1 n2 n3 u : String),
      S ≠ T →
      (∀ r ∈ prior, r.maintenance_date ≠ D) →
      get_maintenance_stats D
        (add_maintenance_record T "service" parts n3 u D
          (add_maintenance_record S "service" parts n2 u D
            (add_maintenance_record S "repair" parts n1 u D prior))) =
        ⟨D, 2, some 1, some 2⟩) := by
  constructor
  · intro recs D
    constructor
    · unfold get_maintenance_stats
      rw [List.card_toFinset]
    · intro hne
      have hemp : (recs.filter
          (fun r => r.maintenance_date == D)).isEmpty = false := by
        simpa [List.isEmpty_iff] using hne
      unfold get_maintenance_stats
      simp only [hemp, Bool.false_eq_true, if_false, Option.some.injEq]
      constructor
      · rw [countP_filter_and]
      · rw [countP_filter_and]
  · intro prior S T D parts n1 n2 n3 u hST hprior
    have hpf : prior.filter (fun r => r.maintenance_date == D) = [] := by
      rw [List.filter_eq_nil_iff]
      intro r hr
      simpa using hprior r hr
    have hDD : (D == D) = true := by simp
    have hsr : (("service" : String) == "repair") = false := by decide
    have hss : (("service" : String) == "service") = true := by decide
    have hrr : (("repair" : String) == "repair") = true := by decide
    have hrs : (("repair" : String) == "service") = false := by decide
    unfold get_maintenance_stats add_maintenance_record
    simp only [List.filter_append, hpf, List.filter_cons, List.filter_nil,
      hDD, if_true, List.nil_append]
    have hd : ∀ idA idB idC cA cB cC,
        (([⟨idA, S, D, "repair", parts, n1, u, cA⟩,
            ⟨idB, S, D, "service", parts, n2, u, cB⟩,
            ⟨idC, T, D, "service", parts, n3, u, cC⟩] :
          List MaintenanceRecord).map (fun r => r.station_id)).dedup =
          [S, T] := by
      intro idA idB idC cA cB cC
      simp only [List.map_cons, List.map_nil]
      have h1 : ([T] : List Nat).dedup = [T] := by simp
      have h2 : ([S, T] : List Nat).dedup = [S, T] := by
        rw [List.dedup_cons_of_not_mem (by simp [hST])]
        rw [h1]
      rw [List.dedup_cons_of_mem (by simp)]
      exact h2
    have h2 : ([S, T] : List Nat).dedup = [S, T] := by
      rw [List.dedup_cons_of_not_mem (by simp [hST])]
      simp
    simp [hd, h2, List.countP_cons, hsr, hss, hrr, hrs]

theorem daily_stats_correct_witness :
    get_maintenance_stats "2024-03-01"
      (add_maintenance_record 2 "service" "" "" "admin" "2024-03-01"
        (add_maintenance_record 1 "service" "" "" "admin" "2024-03-01"
          (add_maintenance_record 1 "repair" "" "" "admin" "2024-03-01"
            []))) =
      ⟨"2024-03-01", 2, some 1, some 2⟩ :=
  daily_stats_correct.2 [] 1 2 "2024-03-01" "" "" "" "" "admin"
    (by decide) (by decide)

/-- C5: statsByRegion joins maintenance records to the live stations table,
so a record is attributed to its station current region at query time: a
record created while the station region was "A", after the station is
updated to region "B", appears under "B" (and under no other region) in
the result. -/
theorem region_attribution_current (s : Station) (d1 : StationData)
    (rec : MaintenanceRecord) (D : String)
    (h1 : rec.station_id = s.id) (h2 : rec.maintenance_date = D)
    (h3 : s.region = "A") (h4 : d1.region = "B") :
    get_maintenance_stats_by_region D none
      (update_station s.id d1 [s]) [rec] =
      [("B", 1, (if rec.maintenance_type == "repair" then 1 else 0),
        (if rec.maintenance_type == "service" then 1 else 0))] := by
  have hup : update_station s.id d1 [s] =
      [⟨s.id, d1.name, d1.location, d1.type, d1.frequency, d1.power,
        d1.status, d1.contact, d1.notes, d1.region, d1.pdf_file,
        d1.photo_file⟩] := by
    unfold update_station
    simp
  unfold get_maintenance_stats_by_region
  rw [hup]
  simp only [List.flatMap_cons, List.flatMap_nil, List.filter_cons,
    List.filter_nil, h1, beq_self_eq_true, if_true, List.map_cons,
    List.map_nil, List.append_nil, h2, h4]
  simp [List.insertionSort, List.orderedInsert, List.countP_cons]

theorem region_attribution_current_witness :
    get_maintenance_stats_by_region "2024-03-01" none
      (update_station 1
        ⟨"s1", "", "Базовая", "", "", "Активна", "", "", "B", "", ""⟩
        [⟨1, "s1", "", "Базовая", "", "", "Активна", "", "", "A", "", ""⟩])
      [⟨1, 1, "2024-03-01", "repair", "", "", "admin", 0⟩] =
      [("B", 1, 1, 0)] := by
  have h := region_attribution_current
    ⟨1, "s1", "", "Базовая", "", "", "Активна", "", "", "A", "", ""⟩
    ⟨"s1", "", "Базовая", "", "", "Активна", "", "", "B", "", ""⟩
    ⟨1, 1, "2024-03-01", "repair", "", "", "admin", 0⟩ "2024-03-01"
    rfl rfl rfl rfl
  simpa using h

/-- The code-point comparison is total. -/
theorem lexLe_total : ∀ a b : List Char,
    lexLe a b = true ∨ lexLe b a = true := by
  intro a
  induction a with
  | nil => intro b; left; rfl
  | cons x xs ih =>
    intro b
    cases b with
    | nil => right; rfl
    | cons y ys =>
      by_cases h1 : x.toNat < y.toNat
      · left; simp [lexLe, h1]
      · by_cases h2 : y.toNat < x.toNat
        · right; simp [lexLe, h2]
        · rcases ih ys with h | h
          · left; simp [lexLe, h1, h2, h]
          · right; simp [lexLe, h1, h2, h]

/-- The code-point comparison is transitive. -/
theorem lexLe_trans : ∀ a b c : List Char,
    lexLe a b = true → lexLe b c = true → lexLe a c = true := by
  intro a
  induction a with
  | nil => intro b c _ _; rfl
  | cons x xs ih =>
    intro b c hab hbc
    cases b with
    | nil => simp [lexLe] at hab
    | cons y ys =>
      cases c with
      | nil => simp [lexLe] at hbc
      | cons z zs =>
        simp only [lexLe] at hab hbc ⊢
        by_cases hxy : x.toNat < y.toNat
        · by_cases hyz : y.toNat < z.toNat
          · have hlt : x.toNat < z.toNat := Nat.lt_trans hxy hyz
            rw [if_pos hlt]
          · by_cases hzy : z.toNat < y.toNat
            · rw [if_neg hyz, if_pos hzy] at hbc
              exact absurd hbc (by simp)
            · have hlt : x.toNat < z.toNat := by omega
              rw [if_pos hlt]
        · by_cases hyx : y.toNat < x.toNat
          · rw [if_neg hxy, if_pos hyx] at hab
            exact absurd hab (by simp)
          · rw [if_neg hxy, if_neg hyx] at hab
            by_cases hyz : y.toNat < z.toNat
            · have hlt : x.toNat < z.toNat := by omega
              rw [if_pos hlt]
            · by_cases hzy : z.toNat < y.toNat
              · rw [if_neg hyz, if_pos hzy] at hbc
                exact absurd hbc (by simp)
              · have hxz : ¬x.toNat < z.toNat := by omega
                have hzx : ¬z.toNat < x.toNat := by omega
                rw [if_neg hyz, if_neg hzy] at hbc
                rw [if_neg hxz, if_neg hzx]
                exact ih ys zs hab hbc

/-- Totality of the station name order. -/
instance : IsTotal Station stationLe :=
  ⟨fun a b => lexLe_total a.name.toList b.name.toList⟩

/-- Transitivity of the station name order. -/
instance : IsTrans Station stationLe :=
  ⟨fun a b c => lexLe_trans a.name.toList b.name.toList c.name.toList⟩

/-- Totality of the employee tabel-number order. -/
instance : IsTotal Employee employeeLe :=
  ⟨fun a b => lexLe_total a.rakami_tabel.toList b.rakami_tabel.toList⟩

/-- Transitivity of the employee tabel-number order. -/
instance : IsTrans Employee employeeLe :=
  ⟨fun a b c =>
    lexLe_trans a.rakami_tabel.toList b.rakami_tabel.toList
      c.rakami_tabel.toList⟩

/-- The stations of the C4 wildcard counterexample: the search text
"a%c" is not a plain substring of any search column of the first, and
" ab" is not a plain substring of any search column of the second, yet
the program LIKE pattern %a%c% matches "abc" and the stripped %ab%
matches "xaby". -/
def c4Wild : Station :=
  ⟨1, "abc", "", "Базовая", "", "", "Активна", "", "", "A", "", ""⟩

/-- The station of the C4 whitespace counterexample. -/
def c4Pad : Station :=
  ⟨2, "xaby", "", "Базовая", "", "", "Активна", "", "", "A", "", ""⟩

/-- C4 counterexample: the claim demands exactly the rows in which X
itself occurs as a substring of a search column; but the code feeds X
through strip() into a LIKE pattern.  With X = "a%c" the row named "abc"
is returned although "a%c" is a substring (even case-insensitively) of
none of its search columns, and with X = " ab" the row named "xaby" is
returned although " ab" is a substring of none of its columns. -/
theorem fetch_substring_counterexample :
    (fetch_stations "a%c" "A" [c4Wild] = [c4Wild] ∧
      containsSub (c4Wild.name.toList.map Char.toLower)
        ("a%c".toList.map Char.toLower) = false ∧
      containsSub (c4Wild.location.toList.map Char.toLower)
        ("a%c".toList.map Char.toLower) = false ∧
      containsSub (c4Wild.contact.toList.map Char.toLower)
        ("a%c".toList.map Char.toLower) = false ∧
      containsSub (c4Wild.notes.toList.map Char.toLower)
        ("a%c".toList.map Char.toLower) = false) ∧
    (fetch_stations " ab" "A" [c4Pad] = [c4Pad] ∧
      containsSub (c4Pad.name.toList.map Char.toLower)
        (" ab".toList.map Char.toLower) = false ∧
      containsSub (c4Pad.location.toList.map Char.toLower)
        (" ab".toList.map Char.toLower) = false ∧
      containsSub (c4Pad.contact.toList.map Char.toLower)
        (" ab".toList.map Char.toLower) = false ∧
      containsSub (c4Pad.notes.toList.map Char.toLower)
        (" ab".toList.map Char.toLower) = false) := by
  constructor
  · exact ⟨by decide, by decide, by decide, by decide, by decide⟩
  · exact ⟨by decide, by decide, by decide, by decide, by decide⟩

/-- C4 amended: fetch with empty search text returns all rows matching
the region filter (all live rows under the sentinel region "Все"); fetch
with nonempty search text X returns exactly the rows matching the region
filter in which the stripped X matches at least one of the fixed search
columns under SQL LIKE %X% semantics (plain substring containment when X
holds no wildcard, with % and _ keeping their LIKE meaning otherwise) —
stations: name, location, contact, notes; employees: tabel number,
last/first/patronymic name, phone.  Every result is ordered ascending by
the business key (station name, employee tabel number). -/
theorem fetch_filter_amended :
    (∀ db : List Station, fetch_stations "" "Все" db =
      db.insertionSort stationLe) ∧
    (∀ db : List Employee, fetch_employees "" "Все" db =
      db.insertionSort employeeLe) ∧
    (∀ (db : List Station) (R : String), R ≠ "" → R ≠ "Все" →
      fetch_stations "" R db =
        (db.filter (fun r => r.region == R)).insertionSort stationLe) ∧
    (∀ (db : List Employee) (R : String), R ≠ "" → R ≠ "Все" →
      fetch_employees "" R db =
        (db.filter (fun r => r.makon == R)).insertionSort employeeLe) ∧
    (∀ (db : List Station) (X R : String), R ≠ "" → R ≠ "Все" → X ≠ "" →
      fetch_stations X R db =
        (db.filter (fun r => r.region == R &&
          (likeContains (pyStrip X) r.name ||
            likeContains (pyStrip X) r.location ||
            likeContains (pyStrip X) r.contact ||
            likeContains (pyStrip X) r.notes))).insertionSort
          stationLe) ∧
    (∀ (db : List Employee) (X R : String), R ≠ "" → R ≠ "Все" → X ≠ "" →
      fetch_employees X R db =
        (db.filter (fun r => r.makon == R &&
          (likeContains (pyStrip X) r.rakami_tabel ||
            likeContains (pyStrip X) r.last_name ||
            likeContains (pyStrip X) r.first_name ||
            likeContains (pyStrip X) r.nasab ||
            likeContains (pyStrip X) r.phone))).insertionSort
          employeeLe) ∧
    (∀ (db : List Station) (X : String), X ≠ "" →
      fetch_stations X "Все" db =
        (db.filter (fun r =>
          likeContains (pyStrip X) r.name ||
            likeContains (pyStrip X) r.location ||
            likeContains (pyStrip X) r.contact ||
            likeContains (pyStrip X) r.notes)).insertionSort stationLe) ∧
    (∀ (db : List Employee) (X : String), X ≠ "" →
      fetch_employees X "Все" db =
        (db.filter (fun r =>
          likeContains (pyStrip X) r.rakami_tabel ||
            likeContains (pyStrip X) r.last_name ||
            likeContains (pyStrip X) r.first_name ||
            likeContains (pyStrip X) r.nasab ||
            likeContains (pyStrip X) r.phone)).insertionSort
          employeeLe) ∧
    (∀ (db : List Station) (X R : String),
      (fetch_stations X R db).Sorted stationLe) ∧
    (∀ (db : List Employee) (X R : String),
      (fetch_employees X R db).Sorted employeeLe) := by
  have hsent : (("Все" : String) != "" && ("Все" : String) != "Все") =
      false := by decide
  have hemptysearch : (("" : String) != "") = false := by decide
  refine ⟨?_, ?_, ?_, ?_, ?_, ?_, ?_, ?_, ?_, ?_⟩
  · intro db
    unfold fetch_stations
    simp [hsent, hemptysearch]
  · intro db
    unfold fetch_employees
    simp [hsent, hemptysearch]
  · intro db R hR1 hR2
    have hc1 : ((R != "") && (R != "Все")) = true := by simp [hR1, hR2]
    unfold fetch_stations
    simp only [hc1, hemptysearch, if_true, Bool.false_eq_true, if_false]
    congr 1
    apply List.filter_congr
    intro a _
    simp
  · intro db R hR1 hR2
    have hc1 : ((R != "") && (R != "Все")) = true := by simp [hR1, hR2]
    unfold fetch_employees
    simp only [hc1, hemptysearch, if_true, Bool.false_eq_true, if_false]
    congr 1
    apply List.filter_congr
    intro a _
    simp
  · intro db X R hR1 hR2 hX
    have hc1 : ((R != "") && (R != "Все")) = true := by simp [hR1, hR2]
    have hc2 : (X != "") = true := by simp [hX]
    unfold fetch_stations
    simp only [hc1, hc2, if_true]
    congr 1
    apply List.filter_congr
    intro a _
    simp [stationLikeHit]
  · intro db X R hR1 hR2 hX
    have hc1 : ((R != "") && (R != "Все")) = true := by simp [hR1, hR2]
    have hc2 : (X != "") = true := by simp [hX]
    unfold fetch_employees
    simp only [hc1, hc2, if_true]
    congr 1
    apply List.filter_congr
    intro a _
    simp [employeeLikeHit]
  · intro db X hX
    have hc2 : (X != "") = true := by simp [hX]
    unfold fetch_stations
    simp only [hsent, hc2, Bool.false_eq_true, if_false, if_true]
    congr 1
    apply List.filter_congr
    intro a _
    simp [stationLikeHit]
  · intro db X hX
    have hc2 : (X != "") = true := by simp [hX]
    unfold fetch_employees
    simp only [hsent, hc2, Bool.false_eq_true, if_false, if_true]
    congr 1
    apply List.filter_congr
    intro a _
    simp [employeeLikeHit]
  · intro db X R
    unfold fetch_stations
    exact List.sorted_insertionSort stationLe _
  · intro db X R
    unfold fetch_employees
    exact List.sorted_insertionSort employeeLe _

/-- The two stations of the fetch example: Alpha in region A, Beta in
region B. -/
def stAlpha : Station :=
  ⟨1, "Alpha", "loc1", "Базовая", "", "", "Активна", "c1", "n1", "A",
    "", ""⟩

/-- The second station of the fetch example. -/
def stBeta : Station :=
  ⟨2, "Beta", "loc2", "Базовая", "", "", "Активна", "c2", "n2", "B",
    "", ""⟩

theorem fetch_filter_amended_witness :
    fetch_stations "alp" "A" [stBeta, stAlpha] = [stAlpha] ∧
    fetch_stations "" "A" [stBeta, stAlpha] = [stAlpha] := by
  constructor
  · have h := fetch_filter_amended.2.2.2.2.1 [stBeta, stAlpha] "alp" "A"
      (by decide) (by decide) (by decide)
    rw [h]
    decide
  · have h := fetch_filter_amended.2.2.1 [stBeta, stAlpha] "A"
      (by decide) (by decide)
    rw [h]
    decide

/-- A decimal digit character decodes back to its digit. -/
theorem digVal_digitChar : ∀ d, d < 10 →
    digVal (Nat.digitChar d) = d := by decide

/-- Appending a digit multiplies the value by ten and adds the digit. -/
theorem digsVal_append (l : List Char) (c : Char) :
    digsVal (l ++ [c]) = 10 * digsVal l + digVal c := by
  simp [digsVal, List.foldl_append]

/-- The decimal rendering of a natural number decodes to that number. -/
theorem digsVal_natDigs (n : Nat) : digsVal (natDigs n) = n := by
  induction n using Nat.strong_induction_on with
  | _ n ih =>
    rw [natDigs]
    by_cases h : n < 10
    · rw [if_pos h]
      have := digVal_digitChar n h
      simp [digsVal, this]
    · rw [if_neg h]
      rw [digsVal_append]
      rw [ih (n / 10) (Nat.div_lt_self (by omega) (by omega))]
      rw [digVal_digitChar (n % 10) (Nat.mod_lt n (by omega))]
      omega

/-- Decimal renderings of distinct numbers differ. -/
theorem natDigs_inj {m n : Nat} (h : natDigs m = natDigs n) : m = n := by
  have := congrArg digsVal h
  rwa [digsVal_natDigs, digsVal_natDigs] at this

/-- The probed candidate names are pairwise distinct. -/
theorem mkCand_inj (root ext : String) :
    Function.Injective (mkCand root ext) := by
  intro i j h
  have hd := congrArg String.data h
  simp only [mkCand, String.data_append, List.append_assoc] at hd
  have h2 : natDigs i ++ ext.data = natDigs j ++ ext.data := by
    simpa using hd
  exact natDigs_inj (by simpa using h2)

/-- The collision loop returns the first candidate that is free, provided
fewer candidates collide than are probed. -/
theorem probeCands_spec (dir : List String) (root ext : String) :
    ∀ idxs : List Nat, idxs.Pairwise (· < ·) →
      idxs.countP (fun i => decide (mkCand root ext i ∈ dir)) <
        idxs.length →
      ∃ i ∈ idxs, probeCands dir root ext idxs = mkCand root ext i ∧
        mkCand root ext i ∉ dir ∧
        ∀ j ∈ idxs, j < i → mkCand root ext j ∈ dir := by
  intro idxs
  induction idxs with
  | nil =>
    intro _ hcount
    simp at hcount
  | cons i rest ih =>
    intro hpw hcount
    by_cases hm : mkCand root ext i ∈ dir
    · have hdm : decide (mkCand root ext i ∈ dir) = true := by
        simpa using hm
      rw [List.countP_cons] at hcount
      simp [hdm, List.length_cons] at hcount
      have hcount2 : rest.countP
          (fun i => decide (mkCand root ext i ∈ dir)) < rest.length := by
        omega
      obtain ⟨k, hk1, hk2, hk3, hk4⟩ := ih (List.Pairwise.sublist
        (List.sublist_cons_self i rest) hpw) hcount2
      refine ⟨k, List.mem_cons_of_mem i hk1, ?_, hk3, ?_⟩
      · unfold probeCands
        rw [if_pos hm]
        exact hk2
      · intro j hj hjk
        rcases List.mem_cons.mp hj with rfl | hj2
        · exact hm
        · exact hk4 j hj2 hjk
    · refine ⟨i, List.mem_cons_self i rest, ?_, hm, ?_⟩
      · unfold probeCands
        rw [if_neg hm]
      · intro j hj hji
        rcases List.mem_cons.mp hj with rfl | hj2
        · omega
        · have := (List.pairwise_cons.mp hpw).1 j hj2
          omega

/-- Among dir.length + 1 pairwise-distinct candidate names, fewer than all
of them can already be present in the directory. -/
theorem cands_bound (dir : List String) (root ext : String) :
    (List.range' 1 (dir.length + 1)).countP
        (fun i => decide (mkCand root ext i ∈ dir)) <
      (List.range' 1 (dir.length + 1)).length := by
  rw [List.countP_eq_length_filter]
  have hnd : ((List.range' 1 (dir.length + 1)).filter
      (fun i => decide (mkCand root ext i ∈ dir))).Nodup :=
    (List.nodup_range' ..).filter _
  have hndm : (((List.range' 1 (dir.length + 1)).filter
      (fun i => decide (mkCand root ext i ∈ dir))).map
      (mkCand root ext)).Nodup := hnd.map (mkCand_inj root ext)
  have hsub : ∀ x ∈ ((List.range' 1 (dir.length + 1)).filter
      (fun i => decide (mkCand root ext i ∈ dir))).map
      (mkCand root ext), x ∈ dir := by
    intro x hx
    rw [List.mem_map] at hx
    obtain ⟨i, hi, rfl⟩ := hx
    have := List.of_mem_filter hi
    simpa using this
  have hlen := (hndm.subperm hsub).length_le
  rw [List.length_map] at hlen
  rw [List.length_range' ..]
  omega

/-- When the unsuffixed name is taken, safe_write_file stores the probed
candidate. -/
theorem safe_write_file_fst_of_mem (d : List String) (hint : String)
    (h : sanitizeRoot (splitext hint).1 ++ (splitext hint).2 ∈ d) :
    (safe_write_file d hint).1 =
      probeCands d (sanitizeRoot (splitext hint).1) (splitext hint).2
        (List.range' 1 (d.length + 1)) := by
  unfold safe_write_file
  simp only [h, if_true]

/-- C8: two successive safe_write_file calls with the same filename hint
into the same directory: neither write lands on a name already present (no
overwrite), the two stored paths differ, and the second stored path is the
sanitized root with a numeric suffix chosen by probing — every smaller
positive suffix was already taken. -/
theorem safe_write_two_distinct (dir : List String) (hint : String) :
    (safe_write_file dir hint).1 ∉ dir ∧
    (safe_write_file (safe_write_file dir hint).2 hint).1 ∉
      (safe_write_file dir hint).2 ∧
    (safe_write_file dir hint).1 ≠
      (safe_write_file (safe_write_file dir hint).2 hint).1 ∧
    (∃ i, 1 ≤ i ∧
      (safe_write_file (safe_write_file dir hint).2 hint).1 =
        mkCand (sanitizeRoot (splitext hint).1) (splitext hint).2 i ∧
      (∀ j, 1 ≤ j → j < i →
        mkCand (sanitizeRoot (splitext hint).1) (splitext hint).2 j ∈
          (safe_write_file dir hint).2)) := by
  have hfree : ∀ d : List String,
      probeCands d (sanitizeRoot (splitext hint).1) (splitext hint).2
        (List.range' 1 (d.length + 1)) ∉ d ∧
      ∃ i, 1 ≤ i ∧
        probeCands d (sanitizeRoot (splitext hint).1) (splitext hint).2
          (List.range' 1 (d.length + 1)) =
          mkCand (sanitizeRoot (splitext hint).1) (splitext hint).2 i ∧
        ∀ j, 1 ≤ j → j < i →
          mkCand (sanitizeRoot (splitext hint).1) (splitext hint).2 j ∈
            d := by
    intro d
    obtain ⟨i, hi1, hi2, hi3, hi4⟩ := probeCands_spec d
      (sanitizeRoot (splitext hint).1) (splitext hint).2
      (List.range' 1 (d.length + 1)) (List.pairwise_lt_range' ..)
      (cands_bound d _ _)
    rw [List.mem_range'_1] at hi1
    refine ⟨hi2 ▸ hi3, i, hi1.1, hi2, ?_⟩
    intro j hj1 hji
    exact hi4 j (List.mem_range'_1.mpr ⟨hj1, by omega⟩) hji
  have hp1 : (safe_write_file dir hint).1 ∉ dir := by
    unfold safe_write_file
    by_cases hf : (sanitizeRoot (splitext hint).1 ++ (splitext hint).2) ∈
        dir
    · simp only [hf, if_true]
      exact (hfree dir).1
    · simp [hf]
  have hd2 : (safe_write_file dir hint).2 =
      (safe_write_file dir hint).1 :: dir := rfl
  have hfirstmem : (sanitizeRoot (splitext hint).1 ++ (splitext hint).2) ∈
      (safe_write_file dir hint).2 := by
    rw [hd2]
    by_cases hf : (sanitizeRoot (splitext hint).1 ++ (splitext hint).2) ∈
        dir
    · exact List.mem_cons_of_mem _ hf
    · have hfe : (safe_write_file dir hint).1 =
          sanitizeRoot (splitext hint).1 ++ (splitext hint).2 := by
        simp [safe_write_file, hf]
      rw [hfe]
      exact List.mem_cons_self _ _
  have hp2eq : (safe_write_file (safe_write_file dir hint).2 hint).1 =
      probeCands (safe_write_file dir hint).2
        (sanitizeRoot (splitext hint).1) (splitext hint).2
        (List.range' 1 ((safe_write_file dir hint).2.length + 1)) :=
    safe_write_file_fst_of_mem _ hint hfirstmem
  have hp2 : (safe_write_file (safe_write_file dir hint).2 hint).1 ∉
      (safe_write_file dir hint).2 := by
    rw [hp2eq]
    exact (hfree (safe_write_file dir hint).2).1
  refine ⟨hp1, hp2, ?_, ?_⟩
  · intro heq
    apply hp2
    rw [← heq, hd2]
    exact List.mem_cons_self _ _
  · obtain ⟨_, i, hi1, hi2, hi3⟩ := hfree (safe_write_file dir hint).2
    exact ⟨i, hi1, hp2eq ▸ hi2, hi3⟩

theorem region_histogram_blank_unknown_witness :
    lookupCount (region_stats [c7Station]) "Согд" =
      [c7Station].countP (fun s => effRegion s == "Согд") :=
  region_histogram_blank_unknown [c7Station] "Согд"

theorem safe_write_two_distinct_witness :
    (safe_write_file [] "doc.pdf").1 ∉ ([] : List String) ∧
    (safe_write_file (safe_write_file [] "doc.pdf").2 "doc.pdf").1 ∉
      (safe_write_file [] "doc.pdf").2 ∧
    (safe_write_file [] "doc.pdf").1 ≠
      (safe_write_file (safe_write_file [] "doc.pdf").2 "doc.pdf").1 ∧
    (∃ i, 1 ≤ i ∧
      (safe_write_file (safe_write_file [] "doc.pdf").2 "doc.pdf").1 =
        mkCand (sanitizeRoot (splitext "doc.pdf").1)
          (splitext "doc.pdf").2 i ∧
      (∀ j, 1 ≤ j → j < i →
        mkCand (sanitizeRoot (splitext "doc.pdf").1)
          (splitext "doc.pdf").2 j ∈ (safe_write_file [] "doc.pdf").2)) :=
  safe_write_two_distinct [] "doc.pdf"
